import Mathlib

set_option maxRecDepth 100000
set_option linter.dupNamespace false

/-!
Shallow embedding of the decision-plane core of the `iam` repository
(authorization server): notification signing and the invalidation bus
listener (package `load`), the reload debounce loop, the signal handler
(package `server`), the cache authentication strategy (package `auth`),
the analytics audit pipeline (package `analytics`) and the authorizer
(package `authorization`), together with theorems settling the spec's
claims about them.
-/

namespace Iam

/-! SHA-256, modelling Go's `crypto/sha256.Sum256` as used by
`Notification.Sign`.  Bytes are `Nat` values below 256, 32-bit words are
`Nat` values reduced modulo `2 ^ 32`. -/

def w32 (x : Nat) : Nat := x % 4294967296

def rotr32 (n x : Nat) : Nat := w32 ((x >>> n) ||| (x <<< (32 - n)))

def bigSigma0 (x : Nat) : Nat := (rotr32 2 x) ^^^ (rotr32 13 x) ^^^ (rotr32 22 x)

def bigSigma1 (x : Nat) : Nat := (rotr32 6 x) ^^^ (rotr32 11 x) ^^^ (rotr32 25 x)

def smallSigma0 (x : Nat) : Nat := (rotr32 7 x) ^^^ (rotr32 18 x) ^^^ (x >>> 3)

def smallSigma1 (x : Nat) : Nat := (rotr32 17 x) ^^^ (rotr32 19 x) ^^^ (x >>> 10)

def chFn (x y z : Nat) : Nat := (x &&& y) ^^^ ((x ^^^ 4294967295) &&& z)

def majFn (x y z : Nat) : Nat := (x &&& y) ^^^ (x &&& z) ^^^ (y &&& z)

/-- Round constants of SHA-256 (FIPS 180-4), written in decimal. -/
def sha256K : List Nat :=
  [1116352408, 1899447441, 3049323471, 3921009573, 961987163,
   1508970993, 2453635748, 2870763221, 3624381080, 310598401,
   607225278, 1426881987, 1925078388, 2162078206, 2614888103,
   3248222580, 3835390401, 4022224774, 264347078, 604807628,
   770255983, 1249150122, 1555081692, 1996064986, 2554220882,
   2821834349, 2952996808, 3210313671, 3336571891, 3584528711,
   113926993, 338241895, 666307205, 773529912, 1294757372,
   1396182291, 1695183700, 1986661051, 2177026350, 2456956037,
   2730485921, 2820302411, 3259730800, 3345764771, 3516065817,
   3600352804, 4094571909, 275423344, 430227734, 506948616,
   659060556, 883997877, 958139571, 1322822218, 1537002063,
   1747873779, 1955562222, 2024104815, 2227730452, 2361852424,
   2428436474, 2756734187, 3204031479, 3329325298]

/-- Working state of the SHA-256 compression function: eight 32-bit words. -/
structure Sha256State where
  a : Nat
  b : Nat
  c : Nat
  d : Nat
  e : Nat
  f : Nat
  g : Nat
  h : Nat
  deriving Repr, DecidableEq

/-- Initial hash value of SHA-256 (FIPS 180-4), written in decimal. -/
def sha256Init : Sha256State :=
  ⟨1779033703, 3144134277, 1013904242, 2773480762,
   1359893119, 2600822924, 528734635, 1541459225⟩

/-- One round of the SHA-256 compression function. -/
def sha256Round (s : Sha256State) (w k : Nat) : Sha256State :=
  let t1 := w32 (s.h + bigSigma1 s.e + chFn s.e s.f s.g + k + w)
  let t2 := w32 (bigSigma0 s.a + majFn s.a s.b s.c)
  ⟨w32 (t1 + t2), s.a, s.b, s.c, w32 (s.d + t1), s.e, s.f, s.g⟩

/-- Group a byte list into big-endian 32-bit words. -/
def bytesToWords : List Nat → List Nat
  | b0 :: b1 :: b2 :: b3 :: rest =>
      ((b0 <<< 24) ||| (b1 <<< 16) ||| (b2 <<< 8) ||| b3) :: bytesToWords rest
  | _ => []

/-- Extend the message schedule.  The accumulator is kept reversed, so the
head is the most recent word; `fuel` counts the remaining words to produce. -/
def sha256Extend : Nat → List Nat → List Nat
  | 0, acc => acc
  | fuel + 1, acc =>
      let wNew := w32 (smallSigma1 (acc.getD 1 0) + acc.getD 6 0 +
        smallSigma0 (acc.getD 14 0) + acc.getD 15 0)
      sha256Extend fuel (wNew :: acc)

/-- Full 64-entry message schedule of one block, given its 16 words. -/
def sha256Schedule (block16 : List Nat) : List Nat :=
  (sha256Extend 48 block16.reverse).reverse

/-- Compress one 64-byte block into the running state. -/
def sha256Compress (s : Sha256State) (block : List Nat) : Sha256State :=
  let ws := sha256Schedule (bytesToWords block)
  let t := (ws.zip sha256K).foldl (fun st p => sha256Round st p.1 p.2) s
  ⟨w32 (s.a + t.a), w32 (s.b + t.b), w32 (s.c + t.c), w32 (s.d + t.d),
   w32 (s.e + t.e), w32 (s.f + t.f), w32 (s.g + t.g), w32 (s.h + t.h)⟩

/-- Big-endian eight-byte encoding of a natural number (the length field of
the SHA-256 padding). -/
def beBytes8 (n : Nat) : List Nat :=
  [(n >>> 56) &&& 255, (n >>> 48) &&& 255, (n >>> 40) &&& 255, (n >>> 32) &&& 255,
   (n >>> 24) &&& 255, (n >>> 16) &&& 255, (n >>> 8) &&& 255, n &&& 255]

/-- SHA-256 padding: append `0x80`, zero bytes up to 56 mod 64, then the
bit length as eight big-endian bytes. -/
def sha256Pad (msg : List Nat) : List Nat :=
  msg ++ 128 :: List.replicate ((119 - msg.length % 64) % 64) 0 ++ beBytes8 (8 * msg.length)

/-- Split a list into chunks of 64 elements; `fuel` bounds the number of
chunks taken. -/
def chunks64 : Nat → List Nat → List (List Nat)
  | 0, _ => []
  | fuel + 1, l => l.take 64 :: chunks64 fuel (l.drop 64)

/-- Big-endian four-byte encoding of a 32-bit word. -/
def wordBytes (x : Nat) : List Nat :=
  [(x >>> 24) &&& 255, (x >>> 16) &&& 255, (x >>> 8) &&& 255, x &&& 255]

/-- SHA-256 digest of a byte list, as a list of 32 bytes. -/
def sha256 (msg : List Nat) : List Nat :=
  let padded := sha256Pad msg
  let s := (chunks64 (padded.length / 64) padded).foldl sha256Compress sha256Init
  wordBytes s.a ++ wordBytes s.b ++ wordBytes s.c ++ wordBytes s.d ++
    wordBytes s.e ++ wordBytes s.f ++ wordBytes s.g ++ wordBytes s.h

/-- Lower-case hexadecimal digit for a value below 16, as Go's
`encoding/hex` produces. -/
def hexDigit (n : Nat) : Char :=
  if n < 10 then Char.ofNat (48 + n) else Char.ofNat (87 + n)

/-- Lower-case hexadecimal encoding of a byte list, modelling Go's
`hex.EncodeToString`. -/
def hexEncode (bs : List Nat) : String :=
  String.mk (bs.flatMap fun b => [hexDigit (b / 16), hexDigit (b % 16)])

/-- UTF-8 encoding of a single code point. -/
def utf8Bytes (c : Nat) : List Nat :=
  if c < 128 then [c]
  else if c < 2048 then [192 ||| (c >>> 6), 128 ||| (c &&& 63)]
  else if c < 65536 then
    [224 ||| (c >>> 12), 128 ||| ((c >>> 6) &&& 63), 128 ||| (c &&& 63)]
  else
    [240 ||| (c >>> 18), 128 ||| ((c >>> 12) &&& 63), 128 ||| ((c >>> 6) &&& 63), 128 ||| (c &&& 63)]

/-- Byte sequence of a Go string: the UTF-8 encoding of its characters,
modelling the Go conversion from string to byte slice. -/
def strBytes (s : String) : List Nat :=
  s.data.flatMap fun c => utf8Bytes c.toNat

/-! Package `load`: cluster change notifications and the reload debounce
machinery (`notification.go` / `load.go`). -/

namespace Load

/-- Name of the shared pub/sub channel (`RedisPubSubChannel`). -/
def RedisPubSubChannel : String := "iam.cluster.notifications"

/-- Notification command announcing a policy change (`NoticePolicyChanged`). -/
def NoticePolicyChanged : String := "PolicyChanged"

/-- Notification command announcing a secret change (`NoticeSecretChanged`). -/
def NoticeSecretChanged : String := "SecretChanged"

/-- Value of Go's `crypto.SHA256` constant, recorded in the
`SignatureAlgo` field by `Sign`. -/
def cryptoSHA256 : Nat := 5

/-- Message published to the pub/sub channel (`Notification` in the
source); `Command` is the string-typed `NotificationCommand`. -/
structure Notification where
  Command : String
  Payload : String
  Signature : String
  SignatureAlgo : Nat
  deriving Repr, DecidableEq

/-- Sign a Notification with the SHA256 algorithm: the signature is the
hex-encoded SHA-256 digest of the byte concatenation of `Command` and
`Payload`, exactly as `Notification.Sign` computes it. -/
def Notification.Sign (n : Notification) : Notification :=
  { n with
    SignatureAlgo := cryptoSHA256,
    Signature := Iam.hexEncode (Iam.sha256 (Iam.strBytes (n.Command ++ n.Payload))) }

/-- Input cases of `handleRedisEvent`: the interface value is not a redis
message, its payload fails to unmarshal, or it parses to a Notification. -/
inductive PubSubEvent where
  | notMessage
  | malformed
  | msg (n : Notification)
  deriving Repr, DecidableEq

/-- Result of one `handleRedisEvent` call: the callbacks written to
`reloadQueue` (each possibly nil, modelled as `Option Unit`), and the
command passed to the `handled` callback when the event went through. -/
def handleRedisEvent (v : PubSubEvent) (reloaded : Option Unit) :
    List (Option Unit) × Option String :=
  match v with
  | .notMessage => ([], none)
  | .malformed => ([], none)
  | .msg n =>
      if n.Command = NoticePolicyChanged ∨ n.Command = NoticeSecretChanged then
        ([reloaded], some n.Command)
      else
        ([], none)

/-- Swap out the queued reload callbacks (`shouldReload`): returns the
pair the Go function returns together with the new value of the `requeue`
list. -/
def shouldReload (requeue : List (Option Unit)) :
    (List (Option Unit) × Bool) × List (Option Unit) :=
  if requeue.length = 0 then (([], false), requeue)
  else ((requeue, true), [])

/-- Observable actions of one tick of `reloadLoop`: the `DoReload` call
and each callback invocation (nil callbacks are skipped). -/
inductive ReloadAction where
  | reload
  | callbackRun
  deriving Repr, DecidableEq

/-- One `ticker.C` iteration of `reloadLoop`: swap the queue via
`shouldReload`; when it reports work, perform one `DoReload` and then run
every non-nil callback in order.  Returns the emitted actions and the new
`requeue` list. -/
def reloadTickStep (requeue : List (Option Unit)) :
    List ReloadAction × List (Option Unit) :=
  let res := shouldReload requeue
  if res.1.2 = false then ([], res.2)
  else (ReloadAction.reload :: (res.1.1.filterMap id).map (fun _ => ReloadAction.callbackRun), res.2)

/-- One `reloadQueueLoop` iteration: a callback received from
`reloadQueue` is appended to the `requeue` list. -/
def reloadQueueStep (requeue : List (Option Unit)) (fn : Option Unit) : List (Option Unit) :=
  requeue ++ [fn]

end Load

/-! Package `server`: the signal handler installed by
`SetupSignalHandler` (`signal.go`). -/

namespace Server

/-- Phase of the goroutine spawned by `SetupSignalHandler`: waiting for
the first signal, waiting for the second signal after closing `stop`, or
exited via `os.Exit`. -/
inductive HandlerPhase where
  | armed
  | draining
  | exited
  deriving Repr, DecidableEq

/-- Observable state of the installed signal handler: its phase, whether
the returned `stop` channel is closed, how many times `close(stop)` has
run, and the process exit code if `os.Exit` was reached. -/
structure SignalHandlerState where
  phase : HandlerPhase
  stopClosed : Bool
  stopCloseCount : Nat
  exitCode : Option Nat
  deriving Repr, DecidableEq

/-- State right after `SetupSignalHandler` returns: the handler goroutine
is blocked on its first channel receive and `stop` is open. -/
def SetupSignalHandler : SignalHandlerState :=
  { phase := .armed, stopClosed := false, stopCloseCount := 0, exitCode := none }

/-- Effect of one termination signal delivered to `shutdownHandler`: the
first receive closes `stop`; the second runs `os.Exit(1)`; after exit
nothing more happens. -/
def onSignal (s : SignalHandlerState) : SignalHandlerState :=
  match s.phase with
  | .armed =>
      { phase := .draining, stopClosed := true,
        stopCloseCount := s.stopCloseCount + 1, exitCode := none }
  | .draining => { s with phase := .exited, exitCode := some 1 }
  | .exited => s

/-- Handler state after `n` termination signals have been delivered. -/
def afterSignals (n : Nat) : SignalHandlerState :=
  onSignal^[n] SetupSignalHandler

end Server

/-! Package `auth`: the cache authentication strategy
(`cache.go`). -/

namespace Auth

/-- Basic information of the secret key (`Secret`); `Expires` is in epoch
seconds, 0 meaning never. -/
structure Secret where
  Username : String
  ID : String
  Key : String
  Expires : Int
  deriving Repr, DecidableEq

/-- Check whether a key has expired (`KeyExpired`): for `expires >= 1`
compare `time.Now()` (here the current instant in nanoseconds since the
epoch) against `time.Unix(expires, 0)` with Go's strict `After`; other
values of `expires` never expire. -/
def KeyExpired (nowNs : Int) (expires : Int) : Bool :=
  if 1 ≤ expires then decide (expires * 1000000000 < nowNs) else false

/-- Cause recorded inside the `ErrSignatureInvalid` response: the token
parse can fail on a non-HMAC signing method, a missing `kid` header
(`ErrMissingKID`), a failed secret lookup (`ErrMissingSecret`), or any
other invalid or unverifiable token. -/
inductive SigCause where
  | badMethod
  | missingKID
  | missingSecret
  | invalidToken
  deriving Repr, DecidableEq

/-- Error written to the caller by `AuthFunc`: the error code of the
`WriteResponse` call that aborts the request. -/
inductive AuthError where
  | missingHeader
  | signatureInvalid (cause : SigCause)
  | expired (expiresAt : Int)
  deriving Repr, DecidableEq

/-- Outcome of the `AuthFunc` middleware on one request: an aborted
request carrying an error, or success with `Secret.Username` bound to the
`UsernameKey` slot of the request context. -/
inductive AuthResult where
  | failure (e : AuthError)
  | success (username : String)
  deriving Repr, DecidableEq

/-- Verification outcomes of the JWT library on the raw token, which are
inputs to the strategy: the signing method class, the `kid` header field,
and whether the token verifies (signature, audience and claim validity)
under the key material the key function returns. -/
structure TokenInput where
  isHMAC : Bool
  kid : Option String
  verifiesWithKey : Bool
  deriving Repr, DecidableEq

/-- One request through the middleware returned by
`CacheStrategy.AuthFunc`: empty `Authorization` header, then the
`ParseWithClaims` step whose key function checks the HMAC method, reads
`kid`, and resolves it through `cache.get`; any parse failure aborts with
`ErrSignatureInvalid`; then the `KeyExpired` check; on success the
resolved `Secret.Username` is stored in the request context. -/
def cacheAuthFunc (get : String → Option Secret) (nowNs : Int)
    (header : String) (tok : TokenInput) : AuthResult :=
  if header.length = 0 then .failure .missingHeader
  else if tok.isHMAC = false then .failure (.signatureInvalid .badMethod)
  else
    match tok.kid with
    | none => .failure (.signatureInvalid .missingKID)
    | some kid =>
        match get kid with
        | none => .failure (.signatureInvalid .missingSecret)
        | some secret =>
            if tok.verifiesWithKey = false then .failure (.signatureInvalid .invalidToken)
            else if KeyExpired nowNs secret.Expires then .failure (.expired secret.Expires)
            else .success secret.Username

/-- Modelled from the spec: the set of error kinds §6 claims the
Authenticate flow can return, namely MissingKeyID, MissingSecret,
InvalidSignature and Expired, mapped onto the errors the code actually
writes (`ErrSignatureInvalid` carries the first three as causes). -/
def specClaimedAuthError (e : AuthError) : Bool :=
  match e with
  | .missingHeader => false
  | .signatureInvalid _ => true
  | .expired _ => true

end Auth

/-! Package `analytics`: the asynchronous decision audit pipeline
(`analytics.go`). -/

namespace Analytics

/-- Redis key under which analytics records are appended
(`analyticsKeyName`). -/
def analyticsKeyName : String := "iam-system-analytics"

/-- Value of `recordsBufferForcedFlushInterval` (one second) in
milliseconds, the unit the flush-interval arithmetic is compared in. -/
def recordsBufferForcedFlushIntervalMs : Nat := 1000

/-- Details of one authorization request (`AnalyticsRecord`); `ExpireAt`
is kept as epoch nanoseconds. -/
structure AnalyticsRecord where
  TimeStamp : Int
  Username : String
  Effect : String
  Conclusion : String
  Request : String
  Policies : String
  Deciders : String
  ExpireAt : Int
  deriving Repr, DecidableEq

/-- Options consumed by `NewAnalytics` (`AnalyticsOptions`): the worker
pool size, the shared records-channel capacity and the per-worker flush
interval in milliseconds. -/
structure AnalyticsOptions where
  PoolSize : Nat
  RecordsBufferSize : Nat
  FlushInterval : Nat
  deriving Repr, DecidableEq

/-- Observable state of an `Analytics` instance: the configuration copied
by `NewAnalytics`, the contents of the buffered `recordsChan`, whether
that channel has been closed, and the `shouldStop` flag. -/
structure Analytics where
  poolSize : Nat
  workerBufferSize : Nat
  recordsBufferFlushInterval : Nat
  chanCap : Nat
  chanBuf : List AnalyticsRecord
  chanClosed : Bool
  shouldStop : Nat
  storeConnected : Bool
  deriving Repr, DecidableEq

/-- Construct an analytics instance (`NewAnalytics`): the worker buffer
size is the records buffer size divided by the pool size, and the records
channel is buffered with `RecordsBufferSize` slots. -/
def NewAnalytics (options : AnalyticsOptions) : Analytics :=
  { poolSize := options.PoolSize,
    workerBufferSize := options.RecordsBufferSize / options.PoolSize,
    recordsBufferFlushInterval := options.FlushInterval,
    chanCap := options.RecordsBufferSize,
    chanBuf := [],
    chanClosed := false,
    shouldStop := 0,
    storeConnected := false }

/-- Goroutines spawned by `Analytics.Start`: the pool of record workers
and the `go r.Stop()` goroutine. -/
inductive SpawnedTask where
  | recordWorker
  | stopTask
  deriving Repr, DecidableEq

/-- Synchronous part of `Analytics.Start`: connect the store, reset
`shouldStop` to 0, and spawn `poolSize` record workers followed by a
goroutine that invokes `Stop`. -/
def Analytics.Start (r : Analytics) : Analytics × List SpawnedTask :=
  ({ r with storeConnected := true, shouldStop := 0 },
   List.replicate r.poolSize SpawnedTask.recordWorker ++ [SpawnedTask.stopTask])

/-- Effect of `Analytics.Stop` on the shared state: set `shouldStop` to 1
and close the records channel (it then waits for the workers). -/
def Analytics.Stop (r : Analytics) : Analytics :=
  { r with shouldStop := 1, chanClosed := true }

/-- Outcome of one `RecordHit` call: it returns with an error value, or
the channel send cannot complete yet (a blocking send on a full buffered
channel), or the send panics (send on a closed channel). -/
inductive RecordHitOutcome where
  | returns (r : Analytics) (err : Option String)
  | blocked
  | panicked
  deriving Repr, DecidableEq

/-- Store an `AnalyticsRecord` (`RecordHit`): a no-op returning nil when
`shouldStop` is set, otherwise a send of the record into the buffered
`recordsChan`, which completes only while the buffer has a free slot. -/
def Analytics.RecordHit (r : Analytics) (record : AnalyticsRecord) : RecordHitOutcome :=
  if r.shouldStop > 0 then .returns r none
  else if r.chanClosed then .panicked
  else if r.chanBuf.length < r.chanCap then
    .returns { r with chanBuf := r.chanBuf ++ [record] } none
  else .blocked

/-- Private state of one record worker: its `recordsBuffer` of encoded
records and the milliseconds elapsed since `lastSentTS`. -/
structure WorkerState where
  recordsBuffer : List (List Nat)
  sinceLastSent : Nat
  deriving Repr, DecidableEq

/-- Events one iteration of the worker loop can observe: a record
received from `recordsChan`, the channel reporting closure, or the
`FlushInterval` timeout firing. -/
inductive WorkerEvent where
  | received (record : AnalyticsRecord)
  | channelClosed
  | flushTick
  deriving Repr, DecidableEq

/-- Externally visible effects of one worker iteration. -/
inductive WorkerEffect where
  | appendToSetPipelined (key : String) (items : List (List Nat))
  | exitWorker
  deriving Repr, DecidableEq

/-- Tail of each worker iteration: flush the buffer to the store and
reset it when it is non-empty and either `readyToSend` is set or the
forced-flush interval has elapsed since the last send. -/
def flushMaybe (st : WorkerState) (readyToSend : Bool) : WorkerState × List WorkerEffect :=
  if 0 < st.recordsBuffer.length ∧
      (readyToSend = true ∨ recordsBufferForcedFlushIntervalMs ≤ st.sinceLastSent) then
    ({ st with recordsBuffer := [], sinceLastSent := 0 },
     [WorkerEffect.appendToSetPipelined analyticsKeyName st.recordsBuffer])
  else (st, [])

/-- One iteration of `recordWorker`, parametrised by the msgpack encoder
(external library, passed in as `marshal`; `none` models an encoding
error): on channel closure flush the remainder and exit; on a received
record append its encoding to the buffer and mark `readyToSend` when the
buffer length reaches `workerBufferSize`; on the flush timeout mark
`readyToSend`; then apply `flushMaybe`. -/
def recordWorkerStep (marshal : AnalyticsRecord → Option (List Nat))
    (workerBufferSize : Nat) (st : WorkerState) (ev : WorkerEvent) :
    WorkerState × List WorkerEffect :=
  match ev with
  | .channelClosed =>
      (st, [WorkerEffect.appendToSetPipelined analyticsKeyName st.recordsBuffer,
            WorkerEffect.exitWorker])
  | .received record =>
      let buf :=
        match marshal record with
        | none => st.recordsBuffer
        | some encoded => st.recordsBuffer ++ [encoded]
      flushMaybe { st with recordsBuffer := buf } (buf.length == workerBufferSize)
  | .flushTick => flushMaybe st true

end Analytics

/-! Package `authorization`: the authorizer built on the ladon warden
(`authorizer.go`).  The policy data model and the `IsAllowed` evaluation
live in the external `ory/ladon` library, so they are modelled from the
spec (§4.1). -/

namespace Authz

/-- Effect of a policy: the tagged allow/deny variant of spec §9. -/
inductive Effect where
  | allow
  | deny
  deriving Repr, DecidableEq

/-- Modelled from the spec: an access-control rule (§3 Policy) with
subjects, resources, actions, an effect, and optional conditions; the
external ladon policy type is not part of src. -/
structure Policy where
  subjects : List String
  resources : List String
  actions : List String
  effect : Effect
  conditions : List (String × String)
  deriving Repr, DecidableEq

/-- Modelled from the spec: an AccessRequest (§3) with subject, resource,
action and a string-keyed context. -/
structure AccessRequest where
  Subject : String
  Resource : String
  Action : String
  Context : List (String × String)
  deriving Repr, DecidableEq

/-- Modelled from the spec: wildcard/glob-style pattern matching on
resource, action and subject identifiers with exact equality as a special
case (§4.1); the full glob language of ladon is external to src. -/
def patternMatch (pat value : String) : Bool :=
  pat = "*" || pat = value

/-- A value matches a pattern list when some pattern matches it. -/
def anyPatternMatch (pats : List String) (value : String) : Bool :=
  pats.any fun p => patternMatch p value

/-- Modelled from the spec: a declared condition evaluates to true
against the request context when the context holds the condition's value
under its key (§4.1). -/
def condSatisfied (ctx : List (String × String)) (c : String × String) : Bool :=
  ctx.lookup c.1 == some c.2

/-- Modelled from the spec: a single policy matches a request when the
subject, resource and action patterns all match and every declared
condition evaluates to true against the request context (§4.1). -/
def policyMatches (r : AccessRequest) (p : Policy) : Bool :=
  anyPatternMatch p.subjects r.Subject &&
    anyPatternMatch p.resources r.Resource &&
    anyPatternMatch p.actions r.Action &&
    p.conditions.all (condSatisfied r.Context)

/-- Modelled from the spec: ladon's `DoPoliciesAllow` ordered scan with
deny-overrides (§4.1, §9): a matching deny policy fails the request with
the first blocking reason; otherwise at least one matching allow policy
is required.  The Boolean accumulator records whether an allow match has
been seen. -/
def doPoliciesAllow (r : AccessRequest) : List Policy → Bool → Except String Unit
  | [], allowed =>
      if allowed then Except.ok ()
      else Except.error "The request was denied because no matching policy was found"
  | p :: ps, allowed =>
      if policyMatches r p then
        if p.effect = Effect.deny then
          Except.error "The request was denied because a policy forcefully denied it"
        else doPoliciesAllow r ps true
      else doPoliciesAllow r ps allowed

/-- Modelled from the spec: ladon's `IsAllowed` evaluates the applicable
policies with `doPoliciesAllow`, starting with no allow match seen. -/
def isAllowed (policies : List Policy) (r : AccessRequest) : Except String Unit :=
  doPoliciesAllow r policies false

/-- Response of the authorizer (`authzv1.Response`): the fields
`Authorize` sets; unset fields keep their zero values. -/
structure AuthzResponse where
  Allowed : Bool := false
  Denied : Bool := false
  Reason : String := ""
  deriving Repr, DecidableEq

/-- Determine the subject access (`Authorizer.Authorize`): a non-nil
error from `IsAllowed` yields a denied response carrying the error text,
otherwise the response is allowed. -/
def Authorize (policies : List Policy) (request : AccessRequest) : AuthzResponse :=
  match isAllowed policies request with
  | Except.error e => { Denied := true, Reason := e }
  | Except.ok _ => { Allowed := true }

end Authz

/-! Concrete inputs used by witnesses and counterexamples. -/

namespace Examples

/-- A notification as the management plane would publish it for policy
"p1", correctly signed. -/
def signedN1 : Iam.Load.Notification :=
  Iam.Load.Notification.Sign
    { Command := "PolicyChanged", Payload := "p1", Signature := "", SignatureAlgo := 0 }

/-- The same notification with the payload substituted after signing, as
in spec §8 example 8. -/
def tamperedN : Iam.Load.Notification := { signedN1 with Payload := "p2" }

/-- An empty analytics record. -/
def rec0 : Iam.Analytics.AnalyticsRecord := ⟨0, "", "", "", "", "", "", 0⟩

/-- A running analytics instance whose shared records channel is full. -/
def fullAnalytics : Iam.Analytics.Analytics :=
  { poolSize := 1, workerBufferSize := 1, recordsBufferFlushInterval := 100,
    chanCap := 1, chanBuf := [rec0], chanClosed := false, shouldStop := 0,
    storeConnected := true }

/-- A secret lookup table holding one unexpired secret under kid "kid1". -/
def wGet : String → Option Iam.Auth.Secret :=
  fun kid => if kid = "kid1" then some ⟨"colin", "kid1", "key-material", 0⟩ else none

/-- Token verification outcomes of a valid HMAC token carrying kid
"kid1". -/
def wTok : Iam.Auth.TokenInput := { isHMAC := true, kid := some "kid1", verifiesWithKey := true }

end Examples

end Iam

/-! Theorems.  Each claim of the specification is settled by exactly one
theorem below; helper lemmas carry no claim name. -/

open Iam Iam.Load Iam.Server Iam.Auth Iam.Analytics Iam.Authz Iam.Examples

/-- Sanity check of the SHA-256 embedding against the FIPS 180-4 test
vector for "abc". -/
theorem sha256_test_vector_abc :
    Iam.hexEncode (Iam.sha256 (Iam.strBytes "abc")) =
      "ba7816bf8f01cfea414140de5dae2223b00361a396177a9cb410ff61f20015ad" := by
  decide

/-- C10: for every Notification, `Sign` sets the Signature field to the
hex-encoded SHA-256 digest of the exact concatenation of Command and
Payload with no separator, so two notifications with the same Command and
the same Payload always receive the same signature. -/
theorem notification_sign_hashes_command_payload
    (n₁ n₂ : Notification) (hc : n₁.Command = n₂.Command) (hp : n₁.Payload = n₂.Payload) :
    n₁.Sign.Signature = Iam.hexEncode (Iam.sha256 (Iam.strBytes (n₁.Command ++ n₁.Payload))) ∧
    n₁.Sign.Signature = n₂.Sign.Signature := by
  constructor
  · rfl
  · simp [Notification.Sign, hc, hp]

/-- Witness for C10: two notifications sharing Command "PolicyChanged"
and Payload "p1" but differing elsewhere get the same signature. -/
theorem notification_sign_hashes_command_payload_witness :
    ({ Command := "PolicyChanged", Payload := "p1", Signature := "x", SignatureAlgo := 0 } :
        Notification).Command =
      ({ Command := "PolicyChanged", Payload := "p1", Signature := "", SignatureAlgo := 5 } :
        Notification).Command ∧
    ({ Command := "PolicyChanged", Payload := "p1", Signature := "x", SignatureAlgo := 0 } :
        Notification).Payload =
      ({ Command := "PolicyChanged", Payload := "p1", Signature := "", SignatureAlgo := 5 } :
        Notification).Payload ∧
    (({ Command := "PolicyChanged", Payload := "p1", Signature := "x", SignatureAlgo := 0 } :
          Notification).Sign.Signature =
        Iam.hexEncode (Iam.sha256 (Iam.strBytes ("PolicyChanged" ++ "p1"))) ∧
      ({ Command := "PolicyChanged", Payload := "p1", Signature := "x", SignatureAlgo := 0 } :
          Notification).Sign.Signature =
        ({ Command := "PolicyChanged", Payload := "p1", Signature := "", SignatureAlgo := 5 } :
          Notification).Sign.Signature) :=
  ⟨rfl, rfl, notification_sign_hashes_command_payload _ _ rfl rfl⟩

/-- C3: `Analytics.Start` itself spawns a goroutine invoking `Stop`, and
once that spawned `Stop` has run the `shouldStop` flag is 1, the shared
records channel is closed, and every subsequent `RecordHit` returns a nil
error without enqueuing anything. -/
theorem analytics_start_spawns_stop (r : Iam.Analytics.Analytics) :
    SpawnedTask.stopTask ∈ (Analytics.Start r).2 ∧
    (Analytics.Stop (Analytics.Start r).1).shouldStop = 1 ∧
    (Analytics.Stop (Analytics.Start r).1).chanClosed = true ∧
    ∀ record, Analytics.RecordHit (Analytics.Stop (Analytics.Start r).1) record =
      RecordHitOutcome.returns (Analytics.Stop (Analytics.Start r).1) none := by
  refine ⟨?_, rfl, rfl, ?_⟩
  · simp [Analytics.Start]
  · intro record
    simp [Analytics.RecordHit, Analytics.Stop]

/-- C5 counterexample: at the current time one second after the epoch,
`KeyExpired` does not treat a secret expiring one second before now
(that is, `Expires = 0`) as expired, because of the `expires >= 1`
guard; the claim, quantified over every current time, demands `true`
here. -/
theorem keyExpired_epoch_one_counterexample :
    ¬ (KeyExpired (1 * 1000000000) ((1 : Int) - 1) = true) := by decide

/-- C5 as amended: at every current time at least two seconds after the
epoch, a secret with `Expires` one second before now is expired, and a
secret with `Expires = 0` is never expired at any current time. -/
theorem keyExpired_boundary_amended (nowSec frac : Int) (h2 : 2 ≤ nowSec) (hf : 0 ≤ frac) :
    KeyExpired (nowSec * 1000000000 + frac) (nowSec - 1) = true ∧
    ∀ now : Int, KeyExpired now 0 = false := by
  constructor
  · unfold KeyExpired
    rw [if_pos (by omega)]
    simp only [decide_eq_true_eq]
    omega
  · intro now
    simp [KeyExpired]

/-- Witness for C5 as amended, at two seconds after the epoch. -/
theorem keyExpired_boundary_amended_witness :
    (2 : Int) ≤ 2 ∧ (0 : Int) ≤ 0 ∧
    (KeyExpired (2 * 1000000000 + 0) (2 - 1) = true ∧
      ∀ now : Int, KeyExpired now 0 = false) :=
  ⟨le_refl 2, le_refl 0, keyExpired_boundary_amended 2 0 (by norm_num) (by norm_num)⟩


/-- Helper: delivering one more signal applies `onSignal` once more. -/
theorem afterSignals_succ (n : Nat) :
    afterSignals (n + 1) = onSignal (afterSignals n) :=
  Function.iterate_succ_apply' onSignal n SetupSignalHandler

/-- Helper: after the first signal the handler is draining, `stop` is
closed once, and the process has not exited. -/
theorem afterSignals_one :
    afterSignals 1 = { phase := .draining, stopClosed := true,
                       stopCloseCount := 1, exitCode := none } := by
  decide

/-- Helper: from the second signal on, the handler state is exited with
code 1 and `stop` closed exactly once. -/
theorem afterSignals_two_plus (k : Nat) :
    afterSignals (k + 2) = { phase := .exited, stopClosed := true,
                             stopCloseCount := 1, exitCode := some 1 } := by
  induction k with
  | zero => decide
  | succ k ih =>
      have h : k + 1 + 2 = (k + 2) + 1 := by omega
      rw [h, afterSignals_succ, ih]
      rfl

/-- C8: the handler installed by `SetupSignalHandler` closes the returned
stop channel exactly once on the first termination signal (and has not
exited then), and a second termination signal while draining forces
immediate process exit with code 1. -/
theorem signal_handler_graceful_then_forced (n : Nat) (h1 : 1 ≤ n) :
    (afterSignals n).stopClosed = true ∧
    (afterSignals n).stopCloseCount = 1 ∧
    (afterSignals 1).exitCode = none ∧
    (2 ≤ n → (afterSignals n).phase = .exited ∧ (afterSignals n).exitCode = some 1) := by
  match n, h1 with
  | 1, _ =>
      refine ⟨by rw [afterSignals_one], by rw [afterSignals_one], by rw [afterSignals_one], ?_⟩
      intro h2
      omega
  | (k + 2), _ =>
      refine ⟨by rw [afterSignals_two_plus], by rw [afterSignals_two_plus],
        by rw [afterSignals_one], fun _ => ⟨by rw [afterSignals_two_plus], by rw [afterSignals_two_plus]⟩⟩

/-- Witness for C8 at two delivered signals. -/
theorem signal_handler_graceful_then_forced_witness :
    1 ≤ 2 ∧
    ((afterSignals 2).stopClosed = true ∧
     (afterSignals 2).stopCloseCount = 1 ∧
     (afterSignals 1).exitCode = none ∧
     (2 ≤ 2 → (afterSignals 2).phase = .exited ∧ (afterSignals 2).exitCode = some 1)) :=
  ⟨by omega, signal_handler_graceful_then_forced 2 (by omega)⟩

/-- C2 counterexample: the correctly signed "p1" notification of spec §8
with its payload substituted to "p2" after signing no longer matches the
hash over Command‖Payload, yet `handleRedisEvent` still enqueues one
reload request into the debounce queue. -/
theorem notification_tampered_payload_still_enqueues :
    tamperedN.Signature ≠
      Iam.hexEncode (Iam.sha256 (Iam.strBytes (tamperedN.Command ++ tamperedN.Payload))) ∧
    (handleRedisEvent (PubSubEvent.msg tamperedN) none).1.length = 1 := by
  constructor
  · decide
  · rfl

/-- C2 as amended: the listener performs no signature verification.  For
every deserialized ChangeNotification the outcome of `handleRedisEvent`
is independent of the Signature field: a recognized Command (PolicyChanged
or SecretChanged) enqueues exactly one reload request, any other Command
enqueues none, and non-message or malformed inputs enqueue none. -/
theorem handleRedisEvent_ignores_signature
    (n : Notification) (sig : String) (reloaded : Option Unit) :
    handleRedisEvent (PubSubEvent.msg { n with Signature := sig }) reloaded =
      handleRedisEvent (PubSubEvent.msg n) reloaded ∧
    handleRedisEvent (PubSubEvent.msg n) reloaded =
      (if n.Command = NoticePolicyChanged ∨ n.Command = NoticeSecretChanged
        then ([reloaded], some n.Command) else ([], none)) ∧
    handleRedisEvent PubSubEvent.malformed reloaded = ([], none) ∧
    handleRedisEvent PubSubEvent.notMessage reloaded = ([], none) :=
  ⟨rfl, rfl, rfl, rfl⟩

/-- C4 counterexample: with the pipeline running (`shouldStop = 0`) and
the shared records channel at capacity, `RecordHit` is a blocking channel
send and cannot complete, contradicting "it never blocks". -/
theorem recordHit_blocks_on_full_buffer :
    fullAnalytics.shouldStop = 0 ∧
    Analytics.RecordHit fullAnalytics rec0 = RecordHitOutcome.blocked := by
  constructor
  · rfl
  · decide

/-- C4 as amended: `RecordHit` never returns a non-nil error; when the
pipeline has been signaled to stop it is a no-op returning success;
otherwise it enqueues onto the shared bounded queue while a slot is free,
and blocks while the queue is full. -/
theorem recordHit_nil_error_amended (r : Iam.Analytics.Analytics)
    (record : AnalyticsRecord) :
    (∀ r₂ e, Analytics.RecordHit r record = RecordHitOutcome.returns r₂ (some e) → False) ∧
    (0 < r.shouldStop → Analytics.RecordHit r record = RecordHitOutcome.returns r none) ∧
    (r.shouldStop = 0 → r.chanClosed = false → r.chanBuf.length < r.chanCap →
      Analytics.RecordHit r record =
        RecordHitOutcome.returns { r with chanBuf := r.chanBuf ++ [record] } none) ∧
    (r.shouldStop = 0 → r.chanClosed = false → r.chanCap ≤ r.chanBuf.length →
      Analytics.RecordHit r record = RecordHitOutcome.blocked) := by
  refine ⟨?_, ?_, ?_, ?_⟩
  · intro r₂ e h
    unfold Analytics.RecordHit at h
    split at h
    · exact Option.noConfusion (RecordHitOutcome.returns.inj h).2
    · split at h
      · exact RecordHitOutcome.noConfusion h
      · split at h
        · exact Option.noConfusion (RecordHitOutcome.returns.inj h).2
        · exact RecordHitOutcome.noConfusion h
  · intro h
    simp [Analytics.RecordHit, h]
  · intro h0 hc hl
    simp [Analytics.RecordHit, h0, hc, hl]
  · intro h0 hc hl
    simp [Analytics.RecordHit, h0, hc]
    omega

/-- Witness for C4 as amended, exercising the full-queue branch on a
concrete instance. -/
theorem recordHit_nil_error_amended_witness :
    fullAnalytics.shouldStop = 0 ∧ fullAnalytics.chanClosed = false ∧
    fullAnalytics.chanCap ≤ fullAnalytics.chanBuf.length ∧
    Analytics.RecordHit fullAnalytics rec0 = RecordHitOutcome.blocked :=
  ⟨rfl, rfl, by decide,
    (recordHit_nil_error_amended fullAnalytics rec0).2.2.2 rfl rfl (by decide)⟩

/-- C9: each of the `poolSize` workers maintains a private buffer of
capacity `RecordsBufferSize / PoolSize`, and when appending a received
record makes the buffer length reach that capacity the worker flushes the
buffer to the backing sink with all buffered records present, then resets
it. -/
theorem worker_buffer_capacity_flush (options : AnalyticsOptions)
    (marshal : AnalyticsRecord → Option (List Nat)) (st : WorkerState)
    (record : AnalyticsRecord) (encoded : List Nat)
    (hm : marshal record = some encoded)
    (hlen : st.recordsBuffer.length + 1 = (NewAnalytics options).workerBufferSize) :
    (NewAnalytics options).workerBufferSize = options.RecordsBufferSize / options.PoolSize ∧
    recordWorkerStep marshal (NewAnalytics options).workerBufferSize st
        (WorkerEvent.received record) =
      ({ st with recordsBuffer := [], sinceLastSent := 0 },
       [WorkerEffect.appendToSetPipelined analyticsKeyName (st.recordsBuffer ++ [encoded])]) := by
  refine ⟨rfl, ?_⟩
  simp only [recordWorkerStep, hm]
  have hb : ((st.recordsBuffer ++ [encoded]).length ==
      (NewAnalytics options).workerBufferSize) = true := by
    simp [List.length_append]
    omega
  rw [hb]
  have hpos : 0 < (st.recordsBuffer ++ [encoded]).length := by simp
  simp [flushMaybe, hpos]

/-- Witness for C9: a pool of 2 workers with a records buffer of 4 gives
worker capacity 2, and the second record triggers a flush carrying both
encoded records. -/
theorem worker_buffer_capacity_flush_witness :
    (fun _ : AnalyticsRecord => some [7]) rec0 = some [7] ∧
    (⟨[[5]], 3⟩ : WorkerState).recordsBuffer.length + 1 =
      (NewAnalytics ⟨2, 4, 100⟩).workerBufferSize ∧
    ((NewAnalytics ⟨2, 4, 100⟩).workerBufferSize = 4 / 2 ∧
      recordWorkerStep (fun _ => some [7]) (NewAnalytics ⟨2, 4, 100⟩).workerBufferSize
          ⟨[[5]], 3⟩ (WorkerEvent.received rec0) =
        ({ recordsBuffer := [], sinceLastSent := 0 },
         [WorkerEffect.appendToSetPipelined analyticsKeyName [[5], [7]]])) :=
  ⟨rfl, rfl, worker_buffer_capacity_flush ⟨2, 4, 100⟩ (fun _ => some [7]) ⟨[[5]], 3⟩ rec0 [7] rfl rfl⟩

/-- Helper: queueing callbacks one by one appends them in order. -/
theorem foldl_reloadQueueStep_eq (cbs acc : List (Option Unit)) :
    cbs.foldl reloadQueueStep acc = acc ++ cbs := by
  induction cbs generalizing acc with
  | nil => simp
  | cons c cs ih => simp [reloadQueueStep, ih]

/-- Helper: callback-invocation actions are never reload actions. -/
theorem count_reload_in_callbacks (l : List Unit) :
    (l.map fun _ => ReloadAction.callbackRun).count ReloadAction.reload = 0 := by
  simp [List.count_eq_zero, List.mem_map]

/-- C7: for N ≥ 1 change notifications appended to the pending-callbacks
list within one tick window, `shouldReload` swaps the whole list out and
resets it to empty, and the reload tick performs exactly one Reload
followed by each pending callback in order, skipping nil callbacks. -/
theorem reload_debounce_single_reload (cbs : List (Option Unit)) (h : cbs ≠ []) :
    cbs.foldl reloadQueueStep [] = cbs ∧
    shouldReload cbs = ((cbs, true), []) ∧
    (reloadTickStep cbs).1.count ReloadAction.reload = 1 ∧
    (reloadTickStep cbs).1 =
      ReloadAction.reload :: (cbs.filterMap id).map (fun _ => ReloadAction.callbackRun) ∧
    (reloadTickStep cbs).2 = [] := by
  have hsr : shouldReload cbs = ((cbs, true), []) := by
    simp [shouldReload, List.length_eq_zero, h]
  have htick : reloadTickStep cbs =
      (ReloadAction.reload :: (cbs.filterMap id).map (fun _ => ReloadAction.callbackRun), []) := by
    simp [reloadTickStep, hsr]
  refine ⟨by simpa using foldl_reloadQueueStep_eq cbs [], hsr, ?_, by rw [htick], by rw [htick]⟩
  rw [htick]
  simp [List.count_cons, List.count_replicate, count_reload_in_callbacks]

/-- Witness for C7 with two queued notifications, one of them carrying a
nil callback. -/
theorem reload_debounce_single_reload_witness :
    ([some (), none] : List (Option Unit)) ≠ [] ∧
    (([some (), none] : List (Option Unit)).foldl reloadQueueStep [] = [some (), none] ∧
     shouldReload [some (), none] = (([some (), none], true), []) ∧
     (reloadTickStep [some (), none]).1.count ReloadAction.reload = 1 ∧
     (reloadTickStep [some (), none]).1 =
       ReloadAction.reload ::
         (([some (), none] : List (Option Unit)).filterMap id).map
           (fun _ => ReloadAction.callbackRun) ∧
     (reloadTickStep [some (), none]).2 = []) :=
  ⟨by simp, reload_debounce_single_reload [some (), none] (by simp)⟩

/-- C6 counterexample: a request with an empty Authorization header is
answered with the MissingHeader error code, which is none of the four
error kinds MissingKeyID, MissingSecret, InvalidSignature and Expired the
claim allows. -/
theorem authFunc_missing_header_counterexample :
    cacheAuthFunc (fun _ => none) 0 "" ⟨true, none, true⟩ =
      AuthResult.failure AuthError.missingHeader ∧
    specClaimedAuthError AuthError.missingHeader = false :=
  ⟨rfl, rfl⟩

/-- C6 as amended: every error returned to the caller by the cache
authentication strategy is one of MissingHeader, InvalidSignature (which
also covers the internal missing-kid and missing-secret lookup failures)
or Expired, and on full success the resolved `Secret.Username` is bound
to the request's authenticated-identity slot. -/
theorem authFunc_error_kinds_amended (get : String → Option Secret) (nowNs : Int)
    (header : String) (tok : TokenInput) :
    (∀ e, cacheAuthFunc get nowNs header tok = AuthResult.failure e →
      e = AuthError.missingHeader ∨ specClaimedAuthError e = true) ∧
    (∀ u, cacheAuthFunc get nowNs header tok = AuthResult.success u →
      ∃ kid secret, tok.kid = some kid ∧ get kid = some secret ∧
        u = secret.Username ∧ KeyExpired nowNs secret.Expires = false ∧
        header.length ≠ 0) := by
  constructor
  · intro e he
    unfold cacheAuthFunc at he
    split at he
    · exact Or.inl (AuthResult.failure.inj he).symm
    · split at he
      · exact Or.inr (by rw [← (AuthResult.failure.inj he)]; rfl)
      · split at he
        · exact Or.inr (by rw [← (AuthResult.failure.inj he)]; rfl)
        · split at he
          · exact Or.inr (by rw [← (AuthResult.failure.inj he)]; rfl)
          · split at he
            · exact Or.inr (by rw [← (AuthResult.failure.inj he)]; rfl)
            · split at he
              · exact Or.inr (by rw [← (AuthResult.failure.inj he)]; rfl)
              · exact AuthResult.noConfusion he
  · intro u hu
    unfold cacheAuthFunc at hu
    by_cases hlen : header.length = 0
    · rw [if_pos hlen] at hu
      exact AuthResult.noConfusion hu
    · rw [if_neg hlen] at hu
      by_cases hh : tok.isHMAC = false
      · rw [if_pos hh] at hu
        exact AuthResult.noConfusion hu
      · rw [if_neg hh] at hu
        cases hkid : tok.kid with
        | none =>
            rw [hkid] at hu
            exact AuthResult.noConfusion hu
        | some kid =>
            rw [hkid] at hu
            dsimp only at hu
            cases hget : get kid with
            | none =>
                rw [hget] at hu
                exact AuthResult.noConfusion hu
            | some secret =>
                rw [hget] at hu
                dsimp only at hu
                by_cases hv : tok.verifiesWithKey = false
                · rw [if_pos hv] at hu
                  exact AuthResult.noConfusion hu
                · rw [if_neg hv] at hu
                  by_cases hexp : KeyExpired nowNs secret.Expires = true
                  · rw [if_pos hexp] at hu
                    exact AuthResult.noConfusion hu
                  · rw [if_neg hexp] at hu
                    exact ⟨kid, secret, rfl, hget, (AuthResult.success.inj hu).symm,
                      by simpa using hexp, hlen⟩

/-- Witness for C6 as amended, on a successful authentication that binds
Username "colin". -/
theorem authFunc_error_kinds_amended_witness :
    cacheAuthFunc wGet 42 "Bearer x" wTok = AuthResult.success "colin" ∧
    (∃ kid secret, wTok.kid = some kid ∧ wGet kid = some secret ∧
      "colin" = secret.Username ∧ KeyExpired 42 secret.Expires = false ∧
      ("Bearer x").length ≠ 0) :=
  ⟨by decide, (authFunc_error_kinds_amended wGet 42 "Bearer x" wTok).2 "colin" (by decide)⟩

/-- Helper: a policy effect that is not deny is allow. -/
theorem effect_ne_deny_iff (e : Effect) : ¬ e = Effect.deny ↔ e = Effect.allow := by
  cases e <;> simp

/-- Helper: the ordered deny-overrides scan succeeds exactly when no
matching policy denies and either an allow match exists or one was
already seen. -/
theorem doPoliciesAllow_ok_iff (r : AccessRequest) (ps : List Policy) (b : Bool) :
    doPoliciesAllow r ps b = Except.ok () ↔
      ((∃ p ∈ ps, policyMatches r p = true ∧ p.effect = Effect.allow) ∨ b = true) ∧
      (∀ p ∈ ps, policyMatches r p = true → ¬ p.effect = Effect.deny) := by
  induction ps generalizing b with
  | nil => cases b <;> simp [doPoliciesAllow]
  | cons p ps ih =>
      by_cases hm : policyMatches r p = true
      · by_cases hd : p.effect = Effect.deny
        · constructor
          · intro h
            have hfalse : False := by simp [doPoliciesAllow, hm, hd] at h
            exact hfalse.elim
          · intro h
            exact absurd hd (h.2 p (List.mem_cons_self p ps) hm)
        · have ha : p.effect = Effect.allow := (effect_ne_deny_iff p.effect).1 hd
          rw [show doPoliciesAllow r (p :: ps) b = doPoliciesAllow r ps true from by
            simp [doPoliciesAllow, hm, hd]]
          rw [ih]
          constructor
          · rintro ⟨-, hall⟩
            refine ⟨Or.inl ⟨p, List.mem_cons_self p ps, hm, ha⟩, ?_⟩
            intro q hq hmq
            rcases List.mem_cons.mp hq with hqp | hq2
            · rw [hqp]
              exact hd
            · exact hall q hq2 hmq
          · rintro ⟨-, hall⟩
            exact ⟨Or.inr rfl, fun q hq hmq => hall q (List.mem_cons_of_mem p hq) hmq⟩
      · rw [show doPoliciesAllow r (p :: ps) b = doPoliciesAllow r ps b from by
          simp [doPoliciesAllow, hm]]
        rw [ih]
        constructor
        · rintro ⟨hex, hall⟩
          refine ⟨?_, ?_⟩
          · rcases hex with ⟨q, hq, hmq, haq⟩ | hb
            · exact Or.inl ⟨q, List.mem_cons_of_mem p hq, hmq, haq⟩
            · exact Or.inr hb
          · intro q hq hmq
            rcases List.mem_cons.mp hq with hqp | hq2
            · rw [hqp] at hmq
              exact absurd hmq hm
            · exact hall q hq2 hmq
        · rintro ⟨hex, hall⟩
          refine ⟨?_, fun q hq hmq => hall q (List.mem_cons_of_mem p hq) hmq⟩
          rcases hex with ⟨q, hq, hmq, haq⟩ | hb
          · rcases List.mem_cons.mp hq with hqp | hq2
            · rw [hqp] at hmq
              exact absurd hmq hm
            · exact Or.inl ⟨q, hq2, hmq, haq⟩
          · exact Or.inr hb

/-- C1: the decision returned by `Authorize` has `Allowed = true` exactly
when at least one applicable policy matches the request with effect allow
and no applicable policy matches it with effect deny; in every other case
(a matching deny, or no matching allow, in particular zero matching
policies) the decision has `Allowed = false`. -/
theorem authorize_deny_overrides (policies : List Policy) (request : AccessRequest) :
    (Authorize policies request).Allowed = true ↔
      ((∃ p ∈ policies, policyMatches request p = true ∧ p.effect = Effect.allow) ∧
       (∀ p ∈ policies, policyMatches request p = true → ¬ p.effect = Effect.deny)) := by
  unfold Authorize isAllowed
  rcases h : doPoliciesAllow request policies false with e | u
  · dsimp only
    constructor
    · intro hab
      exact absurd hab (by simp)
    · intro hrhs
      have hco := (doPoliciesAllow_ok_iff request policies false).mpr
        ⟨Or.inl hrhs.1, hrhs.2⟩
      rw [h] at hco
      exact Except.noConfusion hco
  · dsimp only
    constructor
    · intro _
      cases u
      have hiff := (doPoliciesAllow_ok_iff request policies false).mp h
      rcases hiff with ⟨⟨q, hq, hmq, haq⟩ | hb, hall⟩
      · exact ⟨⟨q, hq, hmq, haq⟩, hall⟩
      · exact absurd hb (by simp)
    · intro _
      rfl
